import Mathlib

/-!
Shallow embedding of the adaptive-learning engine of the MEDMCQ backend
(`backend/adaptive_learning.py`, data model from `backend/models.py`).

Modelling conventions:
* Python dicts (`category_progress`, `subcategory_tracking`) are association
  lists in insertion order; `lookupA` finds the first binding, `updateA`
  replaces the first binding in place or appends a fresh one at the end —
  exactly the observable behaviour of a Python dict.
* `datetime` fields (`last_updated`, `last_activity`, timestamps) carry no
  information any claim depends on and are omitted.
* `random.shuffle` is modelled by an explicit `shuffle` parameter; a run of
  the Python code corresponds to some `shuffle` satisfying
  `∀ l, (shuffle l).Perm l`.
* Python float division in accuracy computations is modelled by exact
  rational division (`ℚ`).
* Python's `sorted` (stable, ascending) is modelled by a stable insertion
  sort `sortByScore`.
* Python list slicing `l[:count]` (including negative `count`) is `pySliceTo`.
-/

namespace MedQuiz

/-- `DifficultyLevel` from models.py: EASY="1", MEDIUM="2", HARD="3", EXTREME="4";
the engine calls them Foundational / Competent / Proficient / Advanced. -/
inductive DifficultyLevel where
  | easy
  | medium
  | hard
  | extreme
deriving DecidableEq, Repr

/-- The `.value` string of each enum member. -/
def DifficultyLevel.value : DifficultyLevel → String
  | .easy => "1"
  | .medium => "2"
  | .hard => "3"
  | .extreme => "4"

/-- `AdaptiveLearningEngine.DIFFICULTY_ORDER`. -/
def DIFFICULTY_ORDER : List DifficultyLevel :=
  [.easy, .medium, .hard, .extreme]

/-- `DIFFICULTY_ORDER.index(d)` (each level occurs exactly once). -/
def difficultyIndex : DifficultyLevel → Nat
  | .easy => 0
  | .medium => 1
  | .hard => 2
  | .extreme => 3

/-- The fields of `Question` the engine reads: category (its enum `.value`
string), optional subcategory, difficulty; `id` distinguishes questions. -/
structure Question where
  id : Nat
  category : String
  subcategory : Option String
  difficulty : DifficultyLevel
deriving DecidableEq, Repr

/-- The fields of `UserAnswer` the engine reads. `time_taken : int` may be
negative, hence `Int`. -/
structure UserAnswer where
  question_id : Nat
  is_correct : Bool
  time_taken : Int
deriving DecidableEq, Repr

/-- `CategoryProgress` (models.py); `wrong_streak` and `last_updated` are
never read by the engine and are omitted. -/
structure CategoryProgress where
  category : String
  current_difficulty : DifficultyLevel
  correct_streak : Nat
  total_answered : Nat
  total_correct : Nat
deriving DecidableEq, Repr

/-- One entry of `progress.subcategory_tracking`: the per
(category,subcategory,level) window tracker dict
`{'recent_answers': [...], 'wrong_count_at_level': n}`. -/
structure Tracking where
  recent_answers : List Bool
  wrong_count_at_level : Nat
deriving DecidableEq, Repr

/-- `UserProgress` (models.py), restricted to the fields the engine touches. -/
structure UserProgress where
  category_progress : List (String × CategoryProgress)
  subcategory_tracking : List (String × Tracking)
  total_questions_answered : Nat
  total_correct : Nat
  highest_streak : Nat
  current_streak : Nat
  total_time_spent : Int
deriving DecidableEq, Repr

/-- Dict lookup: first binding of the key, if any. -/
def lookupA {β : Type} (m : List (String × β)) (k : String) : Option β :=
  match m with
  | [] => none
  | p :: rest => if p.1 = k then some p.2 else lookupA rest k

/-- Dict write `m[k] = v`: replace the first binding in place, or append. -/
def updateA {β : Type} (m : List (String × β)) (k : String) (v : β) :
    List (String × β) :=
  match m with
  | [] => [(k, v)]
  | p :: rest => if p.1 = k then (k, v) :: rest else p :: updateA rest k v

/-- `sum(recent[-4:])`: Python sums booleans as 0/1. -/
def countTrue (l : List Bool) : Nat :=
  l.count true

/-- Python `l[-n:]`: the last `n` elements (all of `l` when shorter). -/
def lastN {α : Type} (n : Nat) (l : List α) : List α :=
  l.drop (l.length - n)

/-- Python `l[:count]` for an arbitrary (possibly negative) `count`. -/
def pySliceTo {α : Type} (l : List α) (count : Int) : List α :=
  if 0 ≤ count then l.take count.toNat
  else l.take ((l.length : Int) + count).toNat

/-- `question.subcategory if hasattr(...) and question.subcategory else category`:
Python truthiness makes an empty string fall back to the category. -/
def subcategoryOf (q : Question) : String :=
  match q.subcategory with
  | some s => if s = "" then q.category else s
  | none => q.category

/-- `tracking_key = f"{category}:{subcategory}"`. -/
def trackingKeyOf (q : Question) : String :=
  q.category ++ ":" ++ subcategoryOf q

/-- `level_key = f"{tracking_key}:{current_level}"`. -/
def levelKey (tracking_key : String) (d : DifficultyLevel) : String :=
  tracking_key ++ ":" ++ d.value

/-- The freshly created `CategoryProgress(...)` of `process_answer`. -/
def initialCategoryProgress (category : String) : CategoryProgress :=
  { category := category
    current_difficulty := .easy
    correct_streak := 0
    total_answered := 0
    total_correct := 0 }

/-- The freshly created tracker `{'recent_answers': [], 'wrong_count_at_level': 0}`. -/
def emptyTracking : Tracking :=
  { recent_answers := [], wrong_count_at_level := 0 }

/-- The category's progress as `process_answer` resolves it (created at EASY
if missing). -/
def currentCatProgress (p : UserProgress) (q : Question) : CategoryProgress :=
  (lookupA p.category_progress q.category).getD (initialCategoryProgress q.category)

/-- The key of the tracker that the answer updates. -/
def activeLevelKey (p : UserProgress) (q : Question) : String :=
  levelKey (trackingKeyOf q) (currentCatProgress p q).current_difficulty

/-- The active tracker (created empty if missing). -/
def activeTracking (p : UserProgress) (q : Question) : Tracking :=
  (lookupA p.subcategory_tracking (activeLevelKey p q)).getD emptyTracking

/-- `tracking['recent_answers'].append(b)` followed by truncation to the last
`LEVEL_UP_WINDOW = 4` entries. -/
def windowAppend (w : List Bool) (b : Bool) : List Bool :=
  if 4 < (w ++ [b]).length then lastN 4 (w ++ [b]) else w ++ [b]

/-- The active tracker after `process_answer` has appended the answer and,
on a wrong answer, incremented `wrong_count_at_level`. -/
def updatedWindowTracking (p : UserProgress) (a : UserAnswer) (q : Question) :
    Tracking :=
  let tr0 := activeTracking p q
  let tr1 := { tr0 with recent_answers := windowAppend tr0.recent_answers a.is_correct }
  if a.is_correct then tr1
  else { tr1 with wrong_count_at_level := tr1.wrong_count_at_level + 1 }

/-- The category progress after the per-category statistics update of
`process_answer` (totals and streak), before the adaptive logic runs. -/
def statsUpdatedCP (p : UserProgress) (a : UserAnswer) (q : Question) :
    CategoryProgress :=
  let cp0 := currentCatProgress p q
  if a.is_correct then
    { cp0 with
        total_answered := cp0.total_answered + 1
        total_correct := cp0.total_correct + 1
        correct_streak := cp0.correct_streak + 1 }
  else
    { cp0 with
        total_answered := cp0.total_answered + 1
        correct_streak := 0 }

/-- `_apply_adaptive_logic`: level up on 3-of-the-last-4 with a full window
(unless at EXTREME), otherwise level down on `wrong_count_at_level >= 2`
(unless at EASY). The `is_correct` argument is received but never used,
exactly as in the source. Returns `(updated_progress, level_changed)`. -/
def applyAdaptiveLogic (cat_progress : CategoryProgress) (tracking : Tracking)
    (is_correct : Bool) : CategoryProgress × Bool :=
  let current_index := difficultyIndex cat_progress.current_difficulty
  let recent := tracking.recent_answers
  let step1 : CategoryProgress × Bool :=
    if 4 ≤ recent.length then
      if 3 ≤ countTrue (lastN 4 recent) then
        if current_index < 3 then
          ({ cat_progress with
              current_difficulty :=
                (DIFFICULTY_ORDER.getD (current_index + 1)
                  cat_progress.current_difficulty) },
            true)
        else (cat_progress, false)
      else (cat_progress, false)
    else (cat_progress, false)
  if step1.2 = false then
    if 2 ≤ tracking.wrong_count_at_level then
      if 0 < current_index then
        ({ step1.1 with
            current_difficulty :=
              (DIFFICULTY_ORDER.getD (current_index - 1)
                step1.1.current_difficulty) },
          true)
      else step1
    else step1
  else step1

/-- The `(cat_progress, level_changed)` pair that `process_answer` obtains
from `_apply_adaptive_logic` on this input. -/
def adaptiveResult (p : UserProgress) (a : UserAnswer) (q : Question) :
    CategoryProgress × Bool :=
  applyAdaptiveLogic (statsUpdatedCP p a q) (updatedWindowTracking p a q) a.is_correct

/-- The key of the tracker of the level the category occupies after the
adaptive logic ran (`new_level_key` in the source). -/
def newLevelKey (p : UserProgress) (a : UserAnswer) (q : Question) : String :=
  levelKey (trackingKeyOf q) (adaptiveResult p a q).1.current_difficulty

/-- `AdaptiveLearningEngine.process_answer`. -/
def process_answer (progress : UserProgress) (answer : UserAnswer)
    (question : Question) : UserProgress :=
  let category := question.category
  let cat_map0 :=
    if (lookupA progress.category_progress category).isNone then
      updateA progress.category_progress category (initialCategoryProgress category)
    else progress.category_progress
  let level_key := activeLevelKey progress question
  let tr2 := updatedWindowTracking progress answer question
  let result := adaptiveResult progress answer question
  let st1 := updateA progress.subcategory_tracking level_key tr2
  let st2 :=
    if result.2 then
      let new_level_key := newLevelKey progress answer question
      let st' :=
        if (lookupA st1 new_level_key).isNone then
          updateA st1 new_level_key emptyTracking
        else st1
      updateA st' level_key { tr2 with wrong_count_at_level := 0 }
    else st1
  { progress with
      category_progress := updateA cat_map0 category result.1
      subcategory_tracking := st2
      total_questions_answered := progress.total_questions_answered + 1
      total_correct :=
        progress.total_correct + (if answer.is_correct then 1 else 0)
      current_streak := if answer.is_correct then progress.current_streak + 1 else 0
      highest_streak :=
        if answer.is_correct then
          (if progress.highest_streak < progress.current_streak + 1 then
            progress.current_streak + 1
          else progress.highest_streak)
        else progress.highest_streak
      total_time_spent := progress.total_time_spent + answer.time_taken }

/-- A sequence of `process_answer` calls. -/
def processAll (progress : UserProgress)
    (steps : List (UserAnswer × Question)) : UserProgress :=
  steps.foldl (fun p s => process_answer p s.1 s.2) progress

/-- A fresh user's progress: all counters zero, no entries. -/
def initialProgress : UserProgress :=
  { category_progress := []
    subcategory_tracking := []
    total_questions_answered := 0
    total_correct := 0
    highest_streak := 0
    current_streak := 0
    total_time_spent := 0 }

/-- The accuracy score of `_get_categories_by_performance`:
`total_correct / total_answered` when any question was answered, else 0.
Python float division is modelled exactly over `ℚ`; `mkRat` is the kernel
computable form of that quotient and `categoryScore_eq_div` below proves it
equal to the `/` form. -/
def categoryScore (cp : CategoryProgress) : ℚ :=
  if 0 < cp.total_answered then
    mkRat (cp.total_correct : Int) cp.total_answered
  else 0

/-- Stable insertion of one scored category: the new element goes after every
already-placed element with a score `≤` its own. -/
def insertByScore (x : String × ℚ) : List (String × ℚ) → List (String × ℚ)
  | [] => [x]
  | y :: ys => if y.2 ≤ x.2 then y :: insertByScore x ys else x :: y :: ys

/-- Python's `sorted(items, key=lambda x: x[1])`: a stable ascending sort. -/
def sortByScore (l : List (String × ℚ)) : List (String × ℚ) :=
  l.foldl (fun acc x => insertByScore x acc) []

/-- `_get_categories_by_performance`: category names sorted by accuracy
ascending (weakest first). -/
def getCategoriesByPerformance (progress : UserProgress) : List String :=
  let category_scores := progress.category_progress.map (fun p => (p.1, categoryScore p.2))
  (sortByScore category_scores).map (fun p => p.1)

/-- The target difficulty for a category name: its `current_difficulty` when
the user has progress there, else EASY. -/
def targetDifficultyFor (progress : UserProgress) (category_name : String) :
    DifficultyLevel :=
  match lookupA progress.category_progress category_name with
  | some cp => cp.current_difficulty
  | none => DifficultyLevel.easy

/-- `_select_adaptive_questions`: for each category, weakest first, append
every pool question matching that category at its target difficulty. -/
def selectAdaptiveQuestions (progress : UserProgress)
    (available_questions : List Question) : List Question :=
  (getCategoriesByPerformance progress).flatMap (fun category_name =>
    available_questions.filter (fun q =>
      q.category == category_name &&
        q.difficulty == targetDifficultyFor progress category_name))

/-- The `filtered` list `get_next_questions` builds before shuffling:
category given → pool filtered to that category at its target difficulty;
no category → `_select_adaptive_questions`. -/
def candidatePool (progress : UserProgress) (available_questions : List Question)
    (category : Option String) : List Question :=
  match category with
  | some cat_name =>
    available_questions.filter (fun q =>
      q.category == cat_name &&
        q.difficulty == targetDifficultyFor progress cat_name)
  | none => selectAdaptiveQuestions progress available_questions

/-- `AdaptiveLearningEngine.get_next_questions`. The source runs
`random.shuffle(filtered)` and returns `filtered[:count]`; the shuffle is the
explicit `shuffle` parameter here (any permutation of its input). -/
def get_next_questions (shuffle : List Question → List Question)
    (progress : UserProgress) (available_questions : List Question)
    (category : Option String) (count : Int) : List Question :=
  pySliceTo (shuffle (candidatePool progress available_questions category)) count

/-- `AdaptiveLearningEngine.should_unlock_advanced`: at MEDIUM with at least
10 answered and accuracy `>= 0.7` (exact rational quotients; see
`should_unlock_advanced_iff` for the `/`-form characterisation). -/
def should_unlock_advanced (progress : UserProgress) (category : String) : Bool :=
  match lookupA progress.category_progress category with
  | none => false
  | some cp =>
    if cp.current_difficulty = DifficultyLevel.medium then
      if 10 ≤ cp.total_answered then
        decide (mkRat 7 10 ≤ mkRat (cp.total_correct : Int) cp.total_answered)
      else false
    else false

/-- Boundedness of every stored window: each tracker's `recent_answers` has
at most `LEVEL_UP_WINDOW = 4` entries. -/
def windowsBounded (p : UserProgress) : Bool :=
  p.subcategory_tracking.all (fun e => e.2.recent_answers.length ≤ 4)

/-- Sample question in category "alpha" at EASY. -/
def qSampleA : Question :=
  { id := 1, category := "alpha", subcategory := none, difficulty := .easy }

/-- Sample question in category "beta" at EASY. -/
def qSampleB : Question :=
  { id := 2, category := "beta", subcategory := none, difficulty := .easy }

/-- A second "alpha" question at EASY. -/
def qSampleA2 : Question :=
  { id := 3, category := "alpha", subcategory := none, difficulty := .easy }

/-- Progress with two categories: "alpha" at 40% accuracy (2 of 5) and
"beta" at 80% accuracy (4 of 5), both at EASY. -/
def pTwoCats : UserProgress :=
  { category_progress :=
      [("alpha", { category := "alpha", current_difficulty := .easy,
                   correct_streak := 0, total_answered := 5, total_correct := 2 }),
       ("beta", { category := "beta", current_difficulty := .easy,
                  correct_streak := 0, total_answered := 5, total_correct := 4 })]
    subcategory_tracking := []
    total_questions_answered := 10
    total_correct := 6
    highest_streak := 0
    current_streak := 0
    total_time_spent := 0 }

/-- Sample question in category "cardiology" at EASY. -/
def qCardio : Question :=
  { id := 7, category := "cardiology", subcategory := none, difficulty := .easy }

/-- A wrong answer to question 7. -/
def aWrongAnswer : UserAnswer :=
  { question_id := 7, is_correct := false, time_taken := 10 }

/-- A correct answer to question 7. -/
def aCorrectAnswer : UserAnswer :=
  { question_id := 7, is_correct := true, time_taken := 5 }

/-- Progress: "cardiology" at EASY with window [T,T,T] and no wrong answers
recorded at this level. -/
def pThreeCorrect : UserProgress :=
  { category_progress :=
      [("cardiology", { category := "cardiology", current_difficulty := .easy,
                        correct_streak := 3, total_answered := 3, total_correct := 3 })]
    subcategory_tracking := [("cardiology:cardiology:1",
      { recent_answers := [true, true, true], wrong_count_at_level := 0 })]
    total_questions_answered := 3
    total_correct := 3
    highest_streak := 3
    current_streak := 3
    total_time_spent := 30 }

/-- Progress: "cardiology" at EASY with window [T,T,T] and 2 wrong answers
recorded at this level (a correct 4th answer levels up). -/
def pLevelUp : UserProgress :=
  { category_progress :=
      [("cardiology", { category := "cardiology", current_difficulty := .easy,
                        correct_streak := 3, total_answered := 5, total_correct := 3 })]
    subcategory_tracking := [("cardiology:cardiology:1",
      { recent_answers := [true, true, true], wrong_count_at_level := 2 })]
    total_questions_answered := 5
    total_correct := 3
    highest_streak := 3
    current_streak := 3
    total_time_spent := 50 }

/-- Sample question in category "renal" with a subcategory. -/
def qRenal : Question :=
  { id := 9, category := "renal", subcategory := some "nephron", difficulty := .easy }

/-- A correct answer with a negative `time_taken`. -/
def aNegTime : UserAnswer :=
  { question_id := 9, is_correct := true, time_taken := -5 }

/-- The accuracy score is exactly the rational quotient
`total_correct / total_answered` of the source (0 when nothing answered). -/
theorem categoryScore_eq_div (cp : CategoryProgress) :
    categoryScore cp =
      if 0 < cp.total_answered then
        (cp.total_correct : ℚ) / (cp.total_answered : ℚ)
      else 0 := by
  unfold categoryScore
  split
  · rw [Rat.mkRat_eq_divInt, Rat.divInt_eq_div]
    push_cast
    ring
  · rfl

/-! ### Association-list (dict) lemmas -/

theorem lookupA_updateA_self {β : Type} (m : List (String × β)) (k : String) (v : β) :
    lookupA (updateA m k v) k = some v := by
  induction m with
  | nil => simp [lookupA, updateA]
  | cons p rest ih =>
    by_cases h : p.1 = k
    · simp [lookupA, updateA, h]
    · simp [lookupA, updateA, h, ih]

theorem lookupA_updateA_ne {β : Type} (m : List (String × β)) (k k' : String) (v : β)
    (h : k' ≠ k) : lookupA (updateA m k v) k' = lookupA m k' := by
  induction m with
  | nil => simp [lookupA, updateA, h, Ne.symm h]
  | cons p rest ih =>
    by_cases hp : p.1 = k
    · subst hp
      simp [lookupA, updateA, h, Ne.symm h]
    · by_cases hp' : p.1 = k'
      · simp [lookupA, updateA, hp, hp', h, Ne.symm h]
      · simp [lookupA, updateA, hp, hp', h, Ne.symm h, ih]

theorem all_updateA {β : Type} (m : List (String × β)) (k : String) (v : β)
    (f : String × β → Bool) (hm : m.all f = true) (hv : f (k, v) = true) :
    (updateA m k v).all f = true := by
  induction m with
  | nil => simpa [updateA]
  | cons p rest ih =>
    simp only [List.all_cons, Bool.and_eq_true] at hm
    by_cases h : p.1 = k
    · simp [updateA, h, hm.2, hv]
    · simp [updateA, h, hm.1, ih hm.2]

/-! ### Window lemmas -/

theorem lastN_of_length_le {α : Type} (n : Nat) (l : List α) (h : l.length ≤ n) :
    lastN n l = l := by
  simp [lastN, Nat.sub_eq_zero_of_le h]

theorem lastN_length_le {α : Type} (n : Nat) (l : List α) :
    (lastN n l).length ≤ n := by
  simp [lastN]
  omega

theorem windowAppend_length_le (w : List Bool) (b : Bool) :
    (windowAppend w b).length ≤ 4 := by
  unfold windowAppend
  split
  · exact lastN_length_le 4 (w ++ [b])
  · omega

theorem windowAppend_eq_lastN (w : List Bool) (b : Bool) :
    windowAppend w b = lastN 4 (w ++ [b]) := by
  unfold windowAppend
  split
  · rfl
  · exact (lastN_of_length_le 4 (w ++ [b]) (by omega)).symm

/-! ### Difficulty-order lemmas -/

theorem difficultyIndex_lt_three_iff (d : DifficultyLevel) :
    difficultyIndex d < 3 ↔ d ≠ DifficultyLevel.extreme := by
  cases d <;> simp [difficultyIndex]

theorem difficultyIndex_pos_iff (d : DifficultyLevel) :
    0 < difficultyIndex d ↔ d ≠ DifficultyLevel.easy := by
  cases d <;> simp [difficultyIndex]

theorem difficultyIndex_getD_succ (d : DifficultyLevel) (x : DifficultyLevel)
    (h : difficultyIndex d < 3) :
    difficultyIndex (DIFFICULTY_ORDER.getD (difficultyIndex d + 1) x)
      = difficultyIndex d + 1 := by
  cases d <;> simp_all [difficultyIndex, DIFFICULTY_ORDER]

theorem difficultyIndex_getD_pred (d : DifficultyLevel) (x : DifficultyLevel)
    (h : 0 < difficultyIndex d) :
    difficultyIndex (DIFFICULTY_ORDER.getD (difficultyIndex d - 1) x) + 1
      = difficultyIndex d := by
  cases d <;> simp_all [difficultyIndex, DIFFICULTY_ORDER]

theorem difficultyIndex_injective (d d' : DifficultyLevel)
    (h : difficultyIndex d = difficultyIndex d') : d = d' := by
  cases d <;> cases d' <;> simp_all [difficultyIndex]

theorem DifficultyLevel.value_injective (d d' : DifficultyLevel)
    (h : d.value = d'.value) : d = d' := by
  cases d <;> cases d' <;> simp_all [DifficultyLevel.value]

theorem levelKey_ne_of_ne (tk : String) (d d' : DifficultyLevel) (h : d ≠ d') :
    levelKey tk d ≠ levelKey tk d' := by
  intro he
  apply h
  apply DifficultyLevel.value_injective
  have hd := congrArg String.data he
  simp only [levelKey, String.data_append] at hd
  exact String.ext (List.append_cancel_left hd)

/-! ### Characterisation of the adaptive logic and of `process_answer` -/

theorem applyAdaptiveLogic_eq (cp : CategoryProgress) (tr : Tracking) (c : Bool) :
    applyAdaptiveLogic cp tr c =
      if 4 ≤ tr.recent_answers.length ∧ 3 ≤ countTrue (lastN 4 tr.recent_answers) ∧
          difficultyIndex cp.current_difficulty < 3 then
        ({ cp with current_difficulty :=
            (DIFFICULTY_ORDER.getD (difficultyIndex cp.current_difficulty + 1)
              cp.current_difficulty) }, true)
      else if 2 ≤ tr.wrong_count_at_level ∧ 0 < difficultyIndex cp.current_difficulty then
        ({ cp with current_difficulty :=
            (DIFFICULTY_ORDER.getD (difficultyIndex cp.current_difficulty - 1)
              cp.current_difficulty) }, true)
      else (cp, false) := by
  simp only [applyAdaptiveLogic]
  split_ifs <;> simp_all

theorem statsUpdatedCP_difficulty (p : UserProgress) (a : UserAnswer) (q : Question) :
    (statsUpdatedCP p a q).current_difficulty
      = (currentCatProgress p q).current_difficulty := by
  simp only [statsUpdatedCP]
  split <;> rfl

theorem updatedWindowTracking_recent (p : UserProgress) (a : UserAnswer) (q : Question) :
    (updatedWindowTracking p a q).recent_answers
      = windowAppend (activeTracking p q).recent_answers a.is_correct := by
  simp only [updatedWindowTracking]
  split <;> rfl

theorem updatedWindowTracking_length_le (p : UserProgress) (a : UserAnswer) (q : Question) :
    (updatedWindowTracking p a q).recent_answers.length ≤ 4 := by
  rw [updatedWindowTracking_recent]
  exact windowAppend_length_le _ _

theorem process_answer_category_lookup (p : UserProgress) (a : UserAnswer) (q : Question) :
    lookupA (process_answer p a q).category_progress q.category
      = some (adaptiveResult p a q).1 := by
  simp only [process_answer]
  exact lookupA_updateA_self _ _ _

/-- Bridge between the raw guard of `_apply_adaptive_logic` on the updated
window and the spec-level phrasing of the level-up condition. -/
theorem upCond_iff (p : UserProgress) (a : UserAnswer) (q : Question) :
    (4 ≤ (updatedWindowTracking p a q).recent_answers.length ∧
      3 ≤ countTrue (lastN 4 (updatedWindowTracking p a q).recent_answers) ∧
      difficultyIndex (currentCatProgress p q).current_difficulty < 3) ↔
    ((updatedWindowTracking p a q).recent_answers.length = 4 ∧
      3 ≤ countTrue (updatedWindowTracking p a q).recent_answers ∧
      (currentCatProgress p q).current_difficulty ≠ DifficultyLevel.extreme) := by
  have hlen := updatedWindowTracking_length_le p a q
  constructor
  · rintro ⟨h1, h2, h3⟩
    rw [lastN_of_length_le 4 _ hlen] at h2
    exact ⟨by omega, h2, (difficultyIndex_lt_three_iff _).mp h3⟩
  · rintro ⟨h1, h2, h3⟩
    rw [lastN_of_length_le 4 _ hlen]
    exact ⟨by omega, h2, (difficultyIndex_lt_three_iff _).mpr h3⟩

/-- C3: in `process_answer` the category's difficulty advances exactly one
step if and only if the active tracker's window (after recording the answer)
holds the full 4 most-recent answers, at least 3 of those 4 are correct, and
the category is not already at Advanced (EXTREME). A window of 1–3 entries
never triggers a level-up, and 2-or-fewer of 4 correct never advances. -/
theorem level_up_iff (p : UserProgress) (a : UserAnswer) (q : Question) :
    (∃ cp', lookupA (process_answer p a q).category_progress q.category = some cp' ∧
        difficultyIndex cp'.current_difficulty
          = difficultyIndex (currentCatProgress p q).current_difficulty + 1) ↔
      ((updatedWindowTracking p a q).recent_answers.length = 4 ∧
        3 ≤ countTrue (updatedWindowTracking p a q).recent_answers ∧
        (currentCatProgress p q).current_difficulty ≠ DifficultyLevel.extreme) := by
  rw [← upCond_iff]
  simp only [process_answer_category_lookup, Option.some.injEq,
    exists_eq_left']
  rw [adaptiveResult, applyAdaptiveLogic_eq]
  rw [statsUpdatedCP_difficulty]
  split_ifs with h1 h2
  · dsimp only
    rw [difficultyIndex_getD_succ _ _ h1.2.2]
    exact iff_of_true rfl h1
  · dsimp only
    have hp := difficultyIndex_getD_pred (currentCatProgress p q).current_difficulty
      ((currentCatProgress p q).current_difficulty) h2.2
    constructor
    · intro hx
      rw [hx] at hp
      omega
    · intro hx
      exact absurd hx h1
  · dsimp only
    constructor
    · intro hx
      rw [statsUpdatedCP_difficulty] at hx
      omega
    · intro hx
      exact absurd hx h1

/-- C4: in `process_answer` the category's difficulty drops exactly one step
if and only if no level-up occurred on that same answer, the active tracker's
`wrong_count_at_level` (after recording the answer) is at least 2, and the
category is not already at Foundational (EASY); moreover at most one level
change happens per answer (the new difficulty index is within 1 of the old). -/
theorem level_down_iff (p : UserProgress) (a : UserAnswer) (q : Question) :
    ((∃ cp', lookupA (process_answer p a q).category_progress q.category = some cp' ∧
        difficultyIndex cp'.current_difficulty + 1
          = difficultyIndex (currentCatProgress p q).current_difficulty) ↔
      (¬((updatedWindowTracking p a q).recent_answers.length = 4 ∧
          3 ≤ countTrue (updatedWindowTracking p a q).recent_answers ∧
          (currentCatProgress p q).current_difficulty ≠ DifficultyLevel.extreme) ∧
        2 ≤ (updatedWindowTracking p a q).wrong_count_at_level ∧
        (currentCatProgress p q).current_difficulty ≠ DifficultyLevel.easy)) ∧
    (∃ cp', lookupA (process_answer p a q).category_progress q.category = some cp' ∧
        difficultyIndex cp'.current_difficulty
          ≤ difficultyIndex (currentCatProgress p q).current_difficulty + 1 ∧
        difficultyIndex (currentCatProgress p q).current_difficulty
          ≤ difficultyIndex cp'.current_difficulty + 1) := by
  simp only [process_answer_category_lookup, Option.some.injEq, exists_eq_left',
    ← upCond_iff]
  rw [adaptiveResult, applyAdaptiveLogic_eq]
  rw [statsUpdatedCP_difficulty]
  split_ifs with h1 h2
  · dsimp only
    rw [difficultyIndex_getD_succ _ _ h1.2.2]
    constructor
    · constructor
      · intro hx
        omega
      · rintro ⟨hn, -⟩
        exact absurd h1 hn
    · omega
  · dsimp only
    have hp := difficultyIndex_getD_pred (currentCatProgress p q).current_difficulty
      ((currentCatProgress p q).current_difficulty) h2.2
    constructor
    · exact iff_of_true hp ⟨h1, h2.1, (difficultyIndex_pos_iff _).mp h2.2⟩
    · omega
  · dsimp only
    rw [statsUpdatedCP_difficulty]
    constructor
    · constructor
      · intro hx
        omega
      · rintro ⟨-, hw, he⟩
        exact absurd ⟨hw, (difficultyIndex_pos_iff _).mpr he⟩ h2
    · omega


theorem adaptiveResult_changed_ne (p : UserProgress) (a : UserAnswer) (q : Question)
    (h : (adaptiveResult p a q).2 = true) :
    (adaptiveResult p a q).1.current_difficulty
      ≠ (currentCatProgress p q).current_difficulty := by
  rw [adaptiveResult, applyAdaptiveLogic_eq] at h ⊢
  rw [statsUpdatedCP_difficulty] at h ⊢
  split_ifs at h ⊢ with h1 h2
  · dsimp only
    intro he
    have hc := congrArg difficultyIndex he
    rw [difficultyIndex_getD_succ _ _ h1.2.2] at hc
    omega
  · dsimp only
    intro he
    have hc := congrArg difficultyIndex he
    have hp := difficultyIndex_getD_pred (currentCatProgress p q).current_difficulty
      ((currentCatProgress p q).current_difficulty) h2.2
    omega

/-- C5: whenever `process_answer` changes the level (up or down), the
`wrong_count_at_level` of the tracker just vacated is reset to 0 (its window
keeps the just-appended answers), while the new level's tracker is left
exactly as it was from any prior visit — created empty only if it did not
exist, never cleared. -/
theorem tracker_reset_on_level_change (p : UserProgress) (a : UserAnswer) (q : Question)
    (h : (adaptiveResult p a q).2 = true) :
    lookupA (process_answer p a q).subcategory_tracking (activeLevelKey p q)
      = some { updatedWindowTracking p a q with wrong_count_at_level := 0 } ∧
    lookupA (process_answer p a q).subcategory_tracking (newLevelKey p a q)
      = some ((lookupA p.subcategory_tracking (newLevelKey p a q)).getD emptyTracking) := by
  have hne : newLevelKey p a q ≠ activeLevelKey p q :=
    levelKey_ne_of_ne _ _ _ (adaptiveResult_changed_ne p a q h)
  simp only [process_answer, h, if_true]
  refine ⟨lookupA_updateA_self _ _ _, ?_⟩
  rw [lookupA_updateA_ne _ _ _ _ hne]
  have hlk : lookupA (updateA p.subcategory_tracking (activeLevelKey p q)
      (updatedWindowTracking p a q)) (newLevelKey p a q)
      = lookupA p.subcategory_tracking (newLevelKey p a q) :=
    lookupA_updateA_ne _ _ _ _ hne
  split_ifs with hn
  · rw [lookupA_updateA_self]
    rw [hlk, Option.isNone_iff_eq_none] at hn
    rw [hn]
    rfl
  · rw [hlk]
    rw [hlk] at hn
    cases hv : lookupA p.subcategory_tracking (newLevelKey p a q) with
    | none => rw [hv] at hn; simp at hn
    | some v => simp [hv]


/-! ### Claims about the question selector and unlock rule -/

theorem mkRat_natCast_eq_div (a b : Nat) :
    mkRat (a : Int) b = (a : ℚ) / (b : ℚ) := by
  rw [Rat.mkRat_eq_divInt, Rat.divInt_eq_div]
  push_cast
  ring

/-- C10: `should_unlock_advanced` returns true exactly when the category has
a progress entry at Competent (MEDIUM) with at least 10 answered and
accuracy `total_correct / total_answered ≥ 0.7`; in every other case
(including a missing entry) it returns false. It is a pure function of
`progress` and never fails. -/
theorem should_unlock_advanced_iff (p : UserProgress) (category : String) :
    should_unlock_advanced p category = true ↔
      ∃ cp, lookupA p.category_progress category = some cp ∧
        cp.current_difficulty = DifficultyLevel.medium ∧
        10 ≤ cp.total_answered ∧
        (7 : ℚ) / 10 ≤ (cp.total_correct : ℚ) / (cp.total_answered : ℚ) := by
  unfold should_unlock_advanced
  cases hl : lookupA p.category_progress category with
  | none => simp [hl]
  | some cp =>
    dsimp only
    simp only [Option.some.injEq, exists_eq_left']
    have h710 : mkRat (7 : Int) 10 = (7 : ℚ) / 10 := by
      have := mkRat_natCast_eq_div 7 10
      push_cast at this ⊢
      exact this
    split_ifs with h1 h2
    · rw [decide_eq_true_iff, h710, mkRat_natCast_eq_div]
      simp [h1, h2]
    · simp [h1, h2]
    · simp [h1]

theorem pySliceTo_sublist {α : Type} (l : List α) (count : Int) :
    (pySliceTo l count).Sublist l := by
  unfold pySliceTo
  split
  · exact List.take_sublist _ _
  · exact List.take_sublist _ _

/-- C1 (amended): with no category given, `get_next_questions` builds the
weakest-category-first concatenation `selectAdaptiveQuestions`, then applies
`random.shuffle` to it and returns the first `count` entries of the SHUFFLED
list; every returned question is drawn from the concatenation (it is a
subpermutation of it), but the returned order is the shuffle's, so
cross-category order is not preserved. -/
theorem next_questions_shuffle_subperm (shuffle : List Question → List Question)
    (hs : ∀ l, (shuffle l).Perm l) (p : UserProgress) (pool : List Question)
    (count : Int) :
    get_next_questions shuffle p pool none count
        = pySliceTo (shuffle (selectAdaptiveQuestions p pool)) count ∧
    (get_next_questions shuffle p pool none count).Subperm
      (selectAdaptiveQuestions p pool) := by
  refine ⟨rfl, ?_⟩
  exact ((pySliceTo_sublist _ _).subperm).trans (hs _).subperm

theorem next_questions_shuffle_subperm_witness :
    get_next_questions id pTwoCats [qSampleA, qSampleB] none 1
        = pySliceTo (id (selectAdaptiveQuestions pTwoCats [qSampleA, qSampleB])) 1 ∧
    (get_next_questions id pTwoCats [qSampleA, qSampleB] none 1).Subperm
      (selectAdaptiveQuestions pTwoCats [qSampleA, qSampleB]) :=
  next_questions_shuffle_subperm id (fun l => List.Perm.refl l)
    pTwoCats [qSampleA, qSampleB] 1

/-- C1 counterexample: with "alpha" at 40% and "beta" at 80% accuracy, the
weakest-first concatenation is [qSampleA, qSampleB], but the source shuffles
it before truncating; under the permutation `List.reverse` (a possible
outcome of `random.shuffle`) the returned list is [qSampleB, qSampleA] —
the 80%-category question precedes the 40%-category one, refuting the
claimed preservation of weakest-category-first order. -/
theorem next_questions_order_counterexample :
    selectAdaptiveQuestions pTwoCats [qSampleA, qSampleB] = [qSampleA, qSampleB] ∧
    (List.reverse [qSampleA, qSampleB]).Perm [qSampleA, qSampleB] ∧
    get_next_questions List.reverse pTwoCats [qSampleA, qSampleB] none 5
      = [qSampleB, qSampleA] ∧
    qSampleB.category = "beta" ∧ qSampleA.category = "alpha" :=
  ⟨by decide, by decide, by decide, rfl, rfl⟩

/-- C6 (amended): `get_next_questions` never fails, and `count = 0` yields
the empty list; but a NEGATIVE `count` follows Python slice semantics
`filtered[:count]`, returning all but the last `|count|` matches (so the
result is nonempty whenever the candidate pool has more than `|count|`
entries). -/
theorem next_questions_nonpositive_count (shuffle : List Question → List Question)
    (hs : ∀ l : List Question, (shuffle l).Perm l) (p : UserProgress)
    (pool : List Question) (category : Option String) (count : Int) :
    (count = 0 → get_next_questions shuffle p pool category count = []) ∧
    (count < 0 → (get_next_questions shuffle p pool category count).length
        = (((candidatePool p pool category).length : Int) + count).toNat) := by
  constructor
  · intro h0
    subst h0
    simp [get_next_questions, pySliceTo]
  · intro hneg
    have hlen : (shuffle (candidatePool p pool category)).length
        = (candidatePool p pool category).length := (hs _).length_eq
    simp only [get_next_questions, pySliceTo]
    rw [if_neg (by omega)]
    simp only [List.length_take, hlen]
    omega

theorem next_questions_nonpositive_count_witness :
    get_next_questions id pTwoCats [qSampleA, qSampleA2] (some "alpha") 0 = [] ∧
    (get_next_questions id pTwoCats [qSampleA, qSampleA2] (some "alpha") (-1)).length
      = (((candidatePool pTwoCats [qSampleA, qSampleA2] (some "alpha")).length : Int)
          + (-1)).toNat :=
  ⟨(next_questions_nonpositive_count id (fun l => List.Perm.refl l)
      pTwoCats [qSampleA, qSampleA2] (some "alpha") 0).1 rfl,
   (next_questions_nonpositive_count id (fun l => List.Perm.refl l)
      pTwoCats [qSampleA, qSampleA2] (some "alpha") (-1)).2 (by decide)⟩

/-- C6 counterexample: with two matching "alpha" questions and
`count = -1 ≤ 0`, the identity shuffle (a possible outcome of
`random.shuffle`) yields `[qSampleA]`, a NON-empty result — Python's
`filtered[:-1]` drops only the last element — refuting "count ≤ 0 returns an
empty sequence". -/
theorem next_questions_negative_count_counterexample :
    get_next_questions id initialProgress [qSampleA, qSampleA2] (some "alpha") (-1)
      = [qSampleA] ∧
    ((-1 : Int) ≤ 0) ∧
    get_next_questions id initialProgress [qSampleA, qSampleA2] (some "alpha") (-1)
      ≠ [] :=
  ⟨by decide, by decide, by decide⟩

/-! ### Claims about `process_answer` as a total function -/

/-- C2 (amended): `process_answer` performs no input validation and has no
failure mode at all: it is a total function that always applies its updates.
In particular a negative `answer.time_taken` is accepted and added to
`total_time_spent`, and the question counter is always incremented. -/
theorem process_answer_total_no_validation (p : UserProgress) (a : UserAnswer)
    (q : Question) :
    (process_answer p a q).total_time_spent = p.total_time_spent + a.time_taken ∧
    (process_answer p a q).total_questions_answered
      = p.total_questions_answered + 1 :=
  ⟨rfl, rfl⟩

/-- C2 counterexample: a call with `time_taken = -5` does not fail with
`InvalidInput` (the source has no validation and raises nothing): it returns
an updated progress whose counters advanced and whose `total_time_spent`
absorbed the negative duration. -/
theorem process_answer_negative_time_counterexample :
    aNegTime.time_taken = -5 ∧
    (process_answer initialProgress aNegTime qRenal).total_time_spent = -5 ∧
    (process_answer initialProgress aNegTime qRenal).total_questions_answered = 1 ∧
    (process_answer initialProgress aNegTime qRenal).total_correct = 1 :=
  ⟨rfl, by decide, by decide, by decide⟩

/-! ### Window invariant, streak monotonicity, decision independence -/

theorem windowsBounded_process_answer (p : UserProgress) (a : UserAnswer)
    (q : Question) (h : windowsBounded p = true) :
    windowsBounded (process_answer p a q) = true := by
  have htr : (updatedWindowTracking p a q).recent_answers.length ≤ 4 :=
    updatedWindowTracking_length_le p a q
  simp only [windowsBounded] at h ⊢
  simp only [process_answer]
  split_ifs with h1 h2
  · apply all_updateA
    · apply all_updateA
      · apply all_updateA _ _ _ _ h
        simpa using htr
      · simp [emptyTracking]
    · simpa using htr
  · apply all_updateA
    · apply all_updateA _ _ _ _ h
      simpa using htr
    · simpa using htr
  · apply all_updateA _ _ _ _ h
    simpa using htr

theorem windowsBounded_processAll (steps : List (UserAnswer × Question)) :
    ∀ init : UserProgress, windowsBounded init = true →
      windowsBounded (processAll init steps) = true := by
  induction steps with
  | nil =>
    intro init h
    simpa [processAll] using h
  | cons s rest ih =>
    intro init h
    exact ih _ (windowsBounded_process_answer init s.1 s.2 h)

/-- C7: across any sequence of `process_answer` calls every tracker's
`recent_answers` stays at length ≤ 4, and the update is the fixed-size
sliding window: appending drops the oldest entries beyond the last 4, with
the most recent entry last. -/
theorem recent_answers_bounded (init : UserProgress)
    (steps : List (UserAnswer × Question)) (w : List Bool) (b : Bool)
    (h : windowsBounded init = true) :
    windowsBounded (processAll init steps) = true ∧
    windowAppend w b = lastN 4 (w ++ [b]) :=
  ⟨windowsBounded_processAll steps init h, windowAppend_eq_lastN w b⟩

theorem recent_answers_bounded_witness :
    windowsBounded initialProgress = true ∧
    (windowsBounded (processAll initialProgress [(aCorrectAnswer, qCardio)]) = true ∧
      windowAppend [true, true, true, true] false
        = lastN 4 ([true, true, true, true] ++ [false])) :=
  ⟨by decide,
   recent_answers_bounded initialProgress [(aCorrectAnswer, qCardio)]
     [true, true, true, true] false (by decide)⟩

theorem highest_streak_mono_step (p : UserProgress) (a : UserAnswer) (q : Question) :
    p.highest_streak ≤ (process_answer p a q).highest_streak := by
  simp only [process_answer]
  split_ifs <;> omega

/-- C8: `highest_streak` is monotonically non-decreasing across any sequence
of `process_answer` calls: its value after the sequence is at least its
value before. -/
theorem highest_streak_monotone (p : UserProgress)
    (steps : List (UserAnswer × Question)) :
    p.highest_streak ≤ (processAll p steps).highest_streak := by
  induction steps generalizing p with
  | nil => simp [processAll]
  | cons s rest ih =>
    calc p.highest_streak ≤ (process_answer p s.1 s.2).highest_streak :=
          highest_streak_mono_step p s.1 s.2
      _ ≤ (processAll (process_answer p s.1 s.2) rest).highest_streak := ih _
      _ = (processAll p (s :: rest)).highest_streak := rfl

/-- C9: `_apply_adaptive_logic` receives `is_correct` but its decision
depends only on the tracker's window, `wrong_count_at_level` and the current
difficulty — the result is the same for any value of `is_correct`; and
concretely, an input whose just-recorded answer is WRONG (window becomes
[T,T,T,F]) still levels up from EASY to MEDIUM on that answer. -/
theorem adaptive_logic_ignores_is_correct :
    (∀ (cp : CategoryProgress) (tr : Tracking) (c₁ c₂ : Bool),
      applyAdaptiveLogic cp tr c₁ = applyAdaptiveLogic cp tr c₂) ∧
    (aWrongAnswer.is_correct = false ∧
      (updatedWindowTracking pThreeCorrect aWrongAnswer qCardio).recent_answers
        = [true, true, true, false] ∧
      lookupA (process_answer pThreeCorrect aWrongAnswer qCardio).category_progress
          "cardiology"
        = some { category := "cardiology",
                 current_difficulty := DifficultyLevel.medium,
                 correct_streak := 0, total_answered := 4, total_correct := 3 }) :=
  ⟨fun cp tr c₁ c₂ => rfl, rfl, by decide, by decide⟩

theorem tracker_reset_on_level_change_witness :
    (adaptiveResult pLevelUp aCorrectAnswer qCardio).2 = true ∧
    (lookupA (process_answer pLevelUp aCorrectAnswer qCardio).subcategory_tracking
        (activeLevelKey pLevelUp qCardio)
      = some { updatedWindowTracking pLevelUp aCorrectAnswer qCardio with
                wrong_count_at_level := 0 } ∧
     lookupA (process_answer pLevelUp aCorrectAnswer qCardio).subcategory_tracking
        (newLevelKey pLevelUp aCorrectAnswer qCardio)
      = some ((lookupA pLevelUp.subcategory_tracking
          (newLevelKey pLevelUp aCorrectAnswer qCardio)).getD emptyTracking)) :=
  ⟨by decide,
   tracker_reset_on_level_change pLevelUp aCorrectAnswer qCardio (by decide)⟩

end MedQuiz
